import Mathlib

/-!
Shallow embedding of the ingestion and canonicalization pipeline of the
process-mining repository: schema validation and normalization for tabular
event logs (scripts/data_processing_service.py, scripts/file_processors_complete.py),
text chunking, event-summary embedding generation, upload dispatch
(scripts/api_server.py, src/api/ingestion_router.py) and the project lifecycle.
Tables are modelled column-major, the way a pandas DataFrame stores them:
an ordered list of named columns, each a list of cells.
-/

deriving instance DecidableEq for Except

namespace ProcMine

/-- Cell of a tabular event log: a string, a number, a parsed timestamp, or null
(pandas NaN / NaT). Numbers are modelled as rationals. -/
inductive Cell where
| str (s : String)
| num (q : Rat)
| time (y mo d h mi s : Nat)
| null
deriving DecidableEq, Repr

/-- Column-major table: ordered list of (column name, cell values), as a pandas
DataFrame stores its data. -/
structure Table where
cols : List (String × List Cell)
deriving DecidableEq, Repr

/-- Names of the columns of a table, in order. -/
def Table.names (t : Table) : List String := t.cols.map (·.1)

/-- Number of rows: the length of the first column (0 for a column-free table). -/
def Table.nrows (t : Table) : Nat := ((t.cols.head?).map (·.2.length)).getD 0

/-- Values of the first column with the given name (pandas df[name]), if present. -/
def Table.getCol (t : Table) (name : String) : Option (List Cell) :=
(t.cols.find? (fun p => p.1 = name)).map (·.2)

/-- Map a function over the cells of every column with the given name
(pandas df[name] = df[name].apply(f)); a table without that column is unchanged. -/
def Table.updateCol (t : Table) (name : String) (f : Cell → Cell) : Table :=
⟨t.cols.map (fun p => if p.1 = name then (p.1, p.2.map f) else p)⟩

/-- Replace the values of the column with the given name
(pandas df[name] = series); a table without that column is unchanged. -/
def Table.setCol (t : Table) (name : String) (vals : List Cell) : Table :=
⟨t.cols.map (fun p => if p.1 = name then (p.1, vals) else p)⟩

/-- Append a fresh column whose every cell is the constant `d`
(pandas df[name] = scalar for an absent name). -/
def Table.addConstCol (t : Table) (name : String) (d : Cell) : Table :=
⟨t.cols ++ [(name, List.replicate t.nrows d)]⟩

/-- Python str.strip(): drop whitespace from both ends (of a character list). -/
def pyStrip (l : List Char) : List Char :=
((l.dropWhile Char.isWhitespace).reverse.dropWhile Char.isWhitespace).reverse

/-- Column-name normalization from data_processing_service.py line 53 and
line 107: `col.lower().replace(' ', '_')`, character by character (the
pattern of the replace is the single character space). -/
def normalizeCol (s : String) : String :=
⟨(s.toList.map Char.toLower).map (fun c => if c = ' ' then '_' else c)⟩

/-- REQUIRED_COLUMNS from data_processing_service.py line 17 (the same list is
inlined at file_processors_complete.py line 49). -/
def REQUIRED_COLUMNS : List String := ["case_id", "activity", "timestamp"]

/-- validate_event_log_schema (data_processing_service.py lines 42-58): compare
the lowercased, underscore-normalized column names against REQUIRED_COLUMNS and
return (is_valid, missing). (The source also computes a `required_lower` list
that it never uses; REQUIRED_COLUMNS is already lowercase.) -/
def validate_event_log_schema (colNames : List String) : Bool × List String :=
let df_columns := colNames.map normalizeCol
let missing := REQUIRED_COLUMNS.filter (fun c => ¬ df_columns.contains c)
(missing.isEmpty, missing)

/-- Alias table from file_processors_complete.py lines 55-60. -/
def COLUMN_MAPPING : List (String × String) :=
[("case:concept:name", "case_id"), ("concept:name", "activity"),
 ("time:timestamp", "timestamp"), ("org:resource", "resource")]

/-- pandas df.rename(columns=mapping): each column name that appears in the
mapping is replaced, all others kept. -/
def renameColumns (mapping : List (String × String)) (colNames : List String) :
    List String :=
colNames.map (fun c => ((mapping.find? (fun p => p.1 = c)).map (·.2)).getD c)

/-- Validation-and-rename portion of process_structured_file
(file_processors_complete.py lines 48-61): the required columns are checked by
EXACT name against the raw columns first (line 50), and only afterwards is the
alias table applied (line 61). On failure the ValueError names the missing
columns; the error payload here is that list. -/
def process_structured_file_check (colNames : List String) :
    Except (List String) (List String) :=
let missing := REQUIRED_COLUMNS.filter (fun c => ¬ colNames.contains c)
if missing.isEmpty then .ok (renameColumns COLUMN_MAPPING colNames)
else .error missing

/-! ## Timestamp parsing (data_processing_service.py lines 109-121)

pd.to_datetime is applied to the whole timestamp column: it either converts
every value or raises, in which case the fallback strptime formats are tried in
order, each again on the whole column; when all of them fail the column is left
exactly as it was (the except/continue arms swallow the errors). The default
ISO parser of pandas is an external-library black box, so the functions below
take it as an explicit parameter `isoParse`; the three fallback formats from
line 116 are implemented concretely. -/

/-- Fallback strptime formats from data_processing_service.py line 116, in
source order: %Y-%m-%dT%H:%M:%S, %Y-%m-%d %H:%M:%S, %Y/%m/%d %H:%M:%S. -/
inductive TsFormat where
| isoT
| spaceDash
| spaceSlash
deriving DecidableEq, Repr

/-- The fixed ordered fallback list from line 116. -/
def FALLBACK_FORMATS : List TsFormat := [.isoT, .spaceDash, .spaceSlash]

/-- Two decimal digits to a number. -/
def twoDigits? (a b : Char) : Option Nat :=
if a.isDigit ∧ b.isDigit then some ((a.toNat - 48) * 10 + (b.toNat - 48)) else none

/-- Parse "YYYYsMMsDDtHH:MM:SS" where s is `dsep` and t is `tsep`, with the
range checks strptime performs (month 1-12, day 1-31, hour 0-23, minute 0-59,
second 0-61). -/
def parseWithSeps (dsep tsep : Char) (s : String) : Option Cell :=
match s.toList with
| [y1, y2, y3, y4, a, m1, m2, b, d1, d2, c, h1, h2, e, i1, i2, f, s1, s2] =>
  if a = dsep ∧ b = dsep ∧ c = tsep ∧ e = ':' ∧ f = ':' ∧
      y1.isDigit ∧ y2.isDigit ∧ y3.isDigit ∧ y4.isDigit then
    match twoDigits? m1 m2, twoDigits? d1 d2, twoDigits? h1 h2,
        twoDigits? i1 i2, twoDigits? s1 s2 with
    | some mo, some d, some h, some mi, some se =>
      if 1 ≤ mo ∧ mo ≤ 12 ∧ 1 ≤ d ∧ d ≤ 31 ∧ h ≤ 23 ∧ mi ≤ 59 ∧ se ≤ 61 then
        some (Cell.time
          (((y1.toNat - 48) * 1000 + (y2.toNat - 48) * 100 +
            (y3.toNat - 48) * 10 + (y4.toNat - 48))) mo d h mi se)
      else none
    | _, _, _, _, _ => none
  else none
| _ => none

/-- strptime with one of the three fallback formats. -/
def strptimeFmt (fmt : TsFormat) (s : String) : Option Cell :=
match fmt with
| .isoT => parseWithSeps '-' 'T' s
| .spaceDash => parseWithSeps '-' ' ' s
| .spaceSlash => parseWithSeps '/' ' ' s

/-- pd.to_datetime(cell, format=fmt): NaN becomes NaT (succeeds), an already
parsed timestamp passes through, a string must match the format, and other
scalars fail. -/
def fmtParseCell (fmt : TsFormat) : Cell → Option Cell
| .null => some .null
| .time y mo d h mi s => some (.time y mo d h mi s)
| .num _ => none
| .str s => strptimeFmt fmt s

/-- Timestamp-column conversion, data_processing_service.py lines 110-121:
first pd.to_datetime(column, utc=True) on the whole column (the `isoParse`
parameter); on failure each fallback format in order, again all-or-nothing on
the whole column; if every attempt fails the column is returned unchanged. -/
def tryFallbackFormats : List TsFormat → List Cell → List Cell
| [], col => col
| f :: fs, col =>
  match col.mapM (fmtParseCell f) with
  | some parsed => parsed
  | none => tryFallbackFormats fs col

/-- See `tryFallbackFormats`; this is the whole try/except block of
data_processing_service.py lines 110-121. -/
def parseTimestampColumn (isoParse : Cell → Option Cell) (col : List Cell) :
    List Cell :=
match col.mapM isoParse with
| some parsed => parsed
| none => tryFallbackFormats FALLBACK_FORMATS col

/-- Approximation of the pandas default ISO parser used for concrete runs: it
accepts the T-separated and space-separated ISO shapes and nothing else. The
pipeline definitions below are parameterized over the real parser; this
instance only has to reject clearly non-timestamp strings such as "garbage",
which pd.to_datetime also rejects. -/
def isoParseCellImpl : Cell → Option Cell
| .null => some .null
| .time y mo d h mi s => some (.time y mo d h mi s)
| .num _ => none
| .str s =>
  match parseWithSeps '-' 'T' s with
  | some c => some c
  | none => parseWithSeps '-' ' ' s

/-! ## Sanitization and canonical transformation -/

/-- fillna: replace null by a default. -/
def fillNullCell (d : Cell) (c : Cell) : Cell := if c = Cell.null then d else c

/-- Textual form of a cell, for astype(str) on the case_id column. NaN prints
as "nan" in pandas; a parsed timestamp prints in its ISO form (the exact digits
of that rendering are irrelevant to the claims). -/
def cellStr : Cell → String
| .str s => s
| .num q => toString q
| .null => "nan"
| .time y mo d h mi s =>
  toString y ++ "-" ++ toString mo ++ "-" ++ toString d ++ " " ++
  toString h ++ ":" ++ toString mi ++ ":" ++ toString s

/-- One cell under a .str accessor: strings are stripped; every non-string
entry of an object column (a number or an already-parsed timestamp) becomes
NaN, and NaN stays NaN — this is what pandas .str.strip() does. -/
def stripCellObj : Cell → Cell
| .str s => .str ⟨pyStrip s.toList⟩
| _ => .null

/-- Does the column have object dtype? In this cell model a column read from a
file has object dtype exactly when it holds at least one string; columns of
only numbers or only nulls are numeric and are skipped by
select_dtypes(include=[object]). -/
def isObjectColumn (col : List Cell) : Bool :=
col.any (fun c => match c with
  | .str _ => true
  | _ => false)

/-- df[col].str.strip() applied to the object-typed columns
(data_processing_service.py lines 86-91): object columns are stripped cell by
cell with non-strings becoming NaN, other columns are untouched. -/
def stripColumn (col : List Cell) : List Cell :=
if isObjectColumn col then col.map stripCellObj else col

/-- Row index is kept by every column when a row is dropped: dropna(how='all')
keeps exactly the rows in which some column is non-null
(data_processing_service.py line 72). -/
def keptRowIdx (t : Table) : List Nat :=
(List.range t.nrows).filter
  (fun i => ¬ (t.cols.all (fun p => p.2.getD i Cell.null = Cell.null)))

/-- dropna(how='all'): restrict every column to the kept row indices. -/
def dropAllNullRows (t : Table) : Table :=
⟨t.cols.map (fun p => (p.1, (keptRowIdx t).map (fun i => p.2.getD i Cell.null)))⟩

/-- sanitize_dataframe (data_processing_service.py lines 61-93): drop fully
empty rows, fill null activity/case_id sentinels, stringify case_id, trim
string cells. Note this runs BEFORE column names are normalized, so the
fills only apply to columns literally named "activity"/"case_id". -/
def sanitize_dataframe (t : Table) : Table :=
let t1 := dropAllNullRows t
let t2 := t1.updateCol "activity" (fillNullCell (Cell.str "Unknown Activity"))
let t3 := t2.updateCol "case_id" (fillNullCell (Cell.str "Unknown Case"))
let t4 := t3.updateCol "case_id" (fun c => Cell.str (cellStr c))
⟨t4.cols.map (fun p => (p.1, stripColumn p.2))⟩

/-- OPTIONAL_COLUMNS with their defaults, data_processing_service.py
lines 20-25: resource "Unknown", cost 0.0, location "", product_type "". -/
def OPTIONAL_COLUMNS : List (String × Cell) :=
[("resource", .str "Unknown"), ("cost", .num 0),
 ("location", .str ""), ("product_type", .str "")]

/-- Is the string one pd.to_numeric can convert? Simplified decimal grammar:
optional sign, digits, optional fractional part (after trimming). -/
def parseNumeric (s : String) : Option Rat :=
let cs := pyStrip s.toList
let body := if cs.head? = some '-' then cs.drop 1 else cs
let intPart := body.takeWhile Char.isDigit
let rest := body.dropWhile Char.isDigit
let frac :=
  if rest.head? = some '.' then some ((rest.drop 1).takeWhile Char.isDigit)
  else none
let tail := if rest.head? = some '.' then (rest.drop 1).dropWhile Char.isDigit
  else rest
if intPart = [] ∨ tail ≠ [] then none
else
  let n : Nat := intPart.foldl (fun a c => a * 10 + (c.toNat - 48)) 0
  let f : Nat := (frac.getD []).foldl (fun a c => a * 10 + (c.toNat - 48)) 0
  let mag : Rat := (n : Rat) + (f : Rat) / ((10 : Rat) ^ (frac.getD []).length)
  some (if cs.head? = some '-' then -mag else mag)

/-- pd.to_numeric(col, errors='coerce').fillna(0.0) applied to one cell
(data_processing_service.py line 130): numbers pass through, numeric-looking
strings convert, everything else (including null) ends up 0.0. -/
def toNumericFill : Cell → Cell
| .num q => .num q
| .str s => match parseNumeric s with
  | some q => .num q
  | none => .num 0
| .null => .num 0
| .time _ _ _ _ _ _ => .num 0

/-- Column-name normalization applied to a whole table,
data_processing_service.py line 107. -/
def normalizeNames (t : Table) : Table :=
⟨t.cols.map (fun p => (normalizeCol p.1, p.2))⟩

/-- Lines 110-121 of data_processing_service.py at the table level: when a
timestamp column exists, replace it with its converted values; otherwise leave
the table alone. -/
def applyTimestampParse (isoParse : Cell → Option Cell) (t1 : Table) : Table :=
match t1.getCol "timestamp" with
| some col => t1.setCol "timestamp" (parseTimestampColumn isoParse col)
| none => t1

/-- transform_to_canonical_format (data_processing_service.py lines 96-132):
normalize column names, convert the timestamp column (see
`parseTimestampColumn`), add each absent optional column with its default, and
coerce cost to numeric with 0.0 for non-numeric values. -/
def transform_to_canonical_format (isoParse : Cell → Option Cell) (t : Table) :
    Table :=
let t1 : Table := normalizeNames t
let t2 := applyTimestampParse isoParse t1
let t3 := OPTIONAL_COLUMNS.foldl
  (fun (acc : Table) pd =>
    if acc.names.contains pd.1 then acc else acc.addConstCol pd.1 pd.2) t2
t3.updateCol "cost" toNumericFill

/-! ## Metrics (data_processing_service.py lines 179-196)

After the transformation, process_structured_data computes a metrics
dictionary. The date_range entries call df[timestamp].min().isoformat() and
df[timestamp].max().isoformat() on a non-empty table: min/max skip nulls, and
the result has an isoformat method only when the column actually converted to
datetimes — on a column that survived as raw strings the min is a string and
.isoformat raises AttributeError, which escapes process_structured_data (a
column mixing raw strings and numbers raises a comparison TypeError at the
same spot; both are modelled as the same non-validation failure). The cost
entries convert float(sum) and float(mean); the cost column is always fully
numeric at this point (toNumericFill), so they cannot fail; the mean of an
empty column is NaN in pandas — a value, not an exception — and its exact
value is modelled loosely as 0. -/

/-- Components of an already-parsed timestamp cell, if any. -/
def dtTuple : Cell → Option (Nat × Nat × Nat × Nat × Nat × Nat)
| .time y mo d h mi s => some (y, mo, d, h, mi, s)
| _ => none

/-- Lexicographic (chronological, for in-range components) order on parsed
timestamps. -/
def dtLeB : (Nat × Nat × Nat × Nat × Nat × Nat) →
    (Nat × Nat × Nat × Nat × Nat × Nat) → Bool
| (y1, mo1, d1, h1, mi1, s1), (y2, mo2, d2, h2, mi2, s2) =>
  if y1 = y2 then
    if mo1 = mo2 then
      if d1 = d2 then
        if h1 = h2 then
          if mi1 = mi2 then decide (s1 ≤ s2)
          else decide (mi1 < mi2)
        else decide (h1 < h2)
      else decide (d1 < d2)
    else decide (mo1 < mo2)
  else decide (y1 < y2)

/-- Fold that keeps the element preferred by `better` (none for an empty
list). -/
def foldBound (better : (Nat × Nat × Nat × Nat × Nat × Nat) →
    (Nat × Nat × Nat × Nat × Nat × Nat) → Bool)
    (times : List (Nat × Nat × Nat × Nat × Nat × Nat)) :
    Option (Nat × Nat × Nat × Nat × Nat × Nat) :=
times.foldl (fun acc x =>
  match acc with
  | none => some x
  | some m => if better x m then some x else some m) none

/-- Two-digit zero padding. -/
def pad2 (n : Nat) : String := if n < 10 then "0" ++ toString n else toString n

/-- Four-digit zero padding. -/
def pad4 (n : Nat) : String :=
if n < 10 then "000" ++ toString n
else if n < 100 then "00" ++ toString n
else if n < 1000 then "0" ++ toString n
else toString n

/-- Timestamp.isoformat() of a tz-aware UTC timestamp. -/
def isoformatDT : (Nat × Nat × Nat × Nat × Nat × Nat) → String
| (y, mo, d, h, mi, s) =>
  pad4 y ++ "-" ++ pad2 mo ++ "-" ++ pad2 d ++ "T" ++ pad2 h ++ ":" ++
    pad2 mi ++ ":" ++ pad2 s ++ "+00:00"

/-- df[timestamp].min().isoformat() (and .max() for useMin = false): nulls are
skipped; when every remaining cell is a parsed timestamp the bound's isoformat
is returned (NaT for an all-null column, whose min is NaT); a remaining raw
string or number has no isoformat method and the call raises. -/
def timestampBoundIso (col : List Cell) (useMin : Bool) : Except String String :=
let nonNull := col.filter (fun c => !(c == Cell.null))
let times := nonNull.filterMap dtTuple
if times.length = nonNull.length then
  match (if useMin then foldBound dtLeB times
    else foldBound (fun a b => dtLeB b a) times) with
  | some b => .ok (isoformatDT b)
  | none => .ok "NaT"
else .error "AttributeError: str object has no attribute isoformat"

/-- pandas Series.nunique(): number of distinct non-null values. -/
def nunique (col : List Cell) : Nat :=
((col.filter (fun c => !(c == Cell.null))).dedup).length

/-- Numeric reading of a cost cell; after coercion every cost cell is
numeric. -/
def cellRat : Cell → Rat
| .num q => q
| _ => 0

/-- The metrics dictionary of process_structured_data
(data_processing_service.py lines 179-196). -/
structure Metrics where
total_events : Nat
unique_cases : Nat
unique_activities : Nat
date_range : Option String × Option String
unique_resources : Option Nat
total_cost : Option Rat
average_cost : Option Rat
deriving DecidableEq, Repr

/-- Metrics computation (data_processing_service.py lines 179-196): counts and
distinct counts, the date range via min/max isoformat (which raises on a
raw-string timestamp column of a non-empty table, see `timestampBoundIso`),
and the optional resource/cost entries. -/
def computeMetrics (df : Table) : Except String Metrics :=
let tsCol := (df.getCol "timestamp").getD []
let dr : Except String (Option String × Option String) :=
  if df.names.contains "timestamp" then
    if 0 < df.nrows then
      match timestampBoundIso tsCol true, timestampBoundIso tsCol false with
      | .ok lo, .ok hi => .ok (some lo, some hi)
      | .error e, _ => .error e
      | _, .error e => .error e
    else .ok (none, none)
  else .ok (none, none)
match dr with
| .error e => .error e
| .ok dateRange =>
  .ok {
    total_events := df.nrows
    unique_cases := nunique ((df.getCol "case_id").getD [])
    unique_activities := nunique ((df.getCol "activity").getD [])
    date_range := dateRange
    unique_resources :=
      if df.names.contains "resource" then
        some (nunique ((df.getCol "resource").getD []))
      else none
    total_cost :=
      if df.names.contains "cost" then
        some ((((df.getCol "cost").getD []).map cellRat).sum)
      else none
    average_cost :=
      if df.names.contains "cost" then
        some ((((df.getCol "cost").getD []).map cellRat).sum / (df.nrows : Rat))
      else none }

/-- process_structured_data (data_processing_service.py lines 135-208) after
the file has been parsed into a table: validate the schema, raising ValueError
"Missing required columns: ..." listing exactly the missing ones, then
sanitize, transform, and compute the metrics — whose date-range step raises
when the timestamp column survived as raw strings on a non-empty table. -/
def process_structured_data (isoParse : Cell → Option Cell) (t : Table) :
    Except String (Table × Metrics) :=
if (validate_event_log_schema t.names).1 then
  match computeMetrics (transform_to_canonical_format isoParse (sanitize_dataframe t)) with
  | .ok m => .ok (transform_to_canonical_format isoParse (sanitize_dataframe t), m)
  | .error e => .error e
else
  .error ("Missing required columns: " ++ String.intercalate ", "
    (validate_event_log_schema t.names).2)

/-- pd.to_datetime(df[timestamp]) as process_structured_file
(file_processors_complete.py line 64) calls it: no try/except and no fallback
formats — a column with any value the default parser rejects raises
immediately. -/
def pd_to_datetime_strict (isoParse : Cell → Option Cell) (col : List Cell) :
    Except String (List Cell) :=
match col.mapM isoParse with
| some parsed => .ok parsed
| none => .error "ValueError: unable to parse timestamps"

/-! ## Chunker (chunk_document, data_processing_service.py lines 211-244)

Text is a list of characters; Python slices content[a:b] (with 0 ≤ a ≤ b)
truncate at the end of the string, as `pySlice` does. The while loop is
embedded with explicit fuel, because its termination depends on the
configuration: the function records the raw window (start, end) of every
iteration, and the emitted chunk is that window sliced out of the content and
stripped, exactly as `chunks.append(content[start:end].strip())` does. -/

/-- content[a:b] for 0 ≤ a ≤ b, truncating at the end of the list. -/
def pySlice (l : List Char) (a b : Nat) : List Char := (l.take b).drop a

/-- Does `pat` occur in `w` starting at index `i`? -/
def occursAt (w pat : List Char) (i : Nat) : Bool := (w.drop i).take pat.length == pat

/-- Python w.rfind(pat) restricted to found results: the largest index at which
`pat` occurs in `w`, if any. -/
def rfindSub (w pat : List Char) : Option Nat :=
((List.range (w.length + 1)).filter (occursAt w pat)).getLast?

/-- Sentence separators from data_processing_service.py line 235, in source
order. -/
def SENTENCE_SEPS : List (List Char) :=
[['.', ' '], ['.', '\n'], ['!', ' '], ['?', '\n']]

/-- Sentence-boundary search (data_processing_service.py lines 234-239): the
first separator in SENTENCE_SEPS whose last occurrence lies past 70% of the
window wins, and the returned offset is that occurrence plus the separator
length. The source compares with the float chunk_size * 0.7; it is modelled by
the exact rational comparison last_sep * 10 > chunk_size * 7. -/
def boundaryOffset (window : List Char) (cs : Nat) : List (List Char) → Option Nat
| [] => none
| sep :: rest =>
  match rfindSub window sep with
  | some i =>
    if i * 10 > cs * 7 then some (i + sep.length) else boundaryOffset window cs rest
  | none => boundaryOffset window cs rest

/-- One window end of the chunking loop at position `start`
(data_processing_service.py lines 230-239): end = start + chunk_size, moved
back to the last sentence boundary in the tail 30% of the window when one
exists and the window does not already reach the end of the text. -/
def windowEnd (content : List Char) (cs start : Nat) : Nat :=
let end0 := start + cs
if end0 < content.length then
  start + (boundaryOffset (pySlice content start end0) cs SENTENCE_SEPS).getD cs
else end0

/-- The chunking while loop (data_processing_service.py lines 229-242) as a
fueled recursion on the window start, recording each iteration's raw window
(start, end). The next start is end - overlap while the end has not reached the
text, end itself afterwards. `none` means the fuel ran out, i.e. the loop did
not finish within that many iterations. -/
def chunkSpans (content : List Char) (cs ov : Nat) : Nat → Nat → Option (List (Nat × Nat))
| 0, _ => none
| fuel + 1, start =>
  if start < content.length then
    let e := windowEnd content cs start
    let next := if e < content.length then e - ov else e
    match chunkSpans content cs ov fuel next with
    | none => none
    | some rest => some ((start, e) :: rest)
  else some []

/-- chunk_document (data_processing_service.py lines 211-244): texts no longer
than chunk_size are returned whole as a single chunk; otherwise the loop runs
(with fuel length+1, enough for every terminating configuration) and each
recorded window is sliced and stripped. `none` means the source loop does not
terminate. -/
def chunk_document (content : List Char) (cs ov : Nat) : Option (List (List Char)) :=
if content.length ≤ cs then some [content]
else (chunkSpans content cs ov (content.length + 1) 0).map
  (List.map (fun p => pyStrip (pySlice content p.1 p.2)))

/-- Concatenation of the chunk windows with the overlapping regions removed:
the first window whole, every later one with its first `overlap` characters
(the region shared with its predecessor) dropped. -/
def spanTailConcat (content : List Char) (ov : Nat) (spans : List (Nat × Nat)) :
    List Char :=
(spans.map (fun q => (pySlice content q.1 q.2).drop ov)).flatten

/-- See `spanTailConcat`: the reconstruction of the text from the windows. -/
def spanConcat (content : List Char) (ov : Nat) : List (Nat × Nat) → List Char
| [] => []
| p :: rest => pySlice content p.1 p.2 ++ spanTailConcat content ov rest

/-- The overlap-removal reconstruction applied to the emitted chunks
themselves, the way the chunk-coverage property states it: first chunk whole,
each later chunk without its first `overlap` characters. -/
def chunkConcat (ov : Nat) : List (List Char) → List Char
| [] => []
| c :: rest => c ++ (rest.map (List.drop ov)).flatten

/-! ## Event summaries and embedding creation
(file_processors_complete.py lines 93-140) -/

/-- An event row as fetched back from the database before embedding
(file_processors_complete.py lines 83-89): id, case_id, activity, timestamp,
resource. Activity, resource and timestamp can be NULL, hence Option;
the timestamp is carried as the string str() renders it to. -/
structure EventRec where
id : Nat
case_id : String
activity : Option String
resource : Option String
timestamp : Option String
deriving DecidableEq, Repr

/-- Python truthiness of event.get(key) for a string field: present and
non-empty. -/
def truthyOpt : Option String → Bool
| none => false
| some s => s ≠ ""

/-- create_event_summary (file_processors_complete.py lines 126-140): start
from "Case {case_id}", append "Activity: ...", "by ...", "at ..." for each
truthy optional part, join with " | ". -/
def create_event_summary (e : EventRec) : String :=
let parts := ["Case " ++ e.case_id]
let parts := if truthyOpt e.activity then parts ++ ["Activity: " ++ e.activity.getD ""]
  else parts
let parts := if truthyOpt e.resource then parts ++ ["by " ++ e.resource.getD ""]
  else parts
let parts := if truthyOpt e.timestamp then parts ++ ["at " ++ e.timestamp.getD ""]
  else parts
String.intercalate " | " parts

/-- The embedding loop of process_structured_file (file_processors_complete.py
lines 94-117): walk the fetched events in batches of 100, embed the batch of
summaries (embed_batch is one embedding per input, in order, per the
EmbeddingGateway contract), and insert one event embedding per event of the
batch, pairing each event with its vector. The result lists every
insert_event_embedding call in order as (event_id, summary_text, vector). -/
def store_event_embeddings (embed : String → List Int) :
    List EventRec → List (Nat × String × List Int)
| [] => []
| e :: rest =>
  let batch := (e :: rest).take 100
  let vecs := (batch.map create_event_summary).map embed
  (batch.zip vecs).map (fun p => (p.1.id, create_event_summary p.1, p.2)) ++
    store_event_embeddings embed ((e :: rest).drop 100)
termination_by l => l.length
decreasing_by simp [List.length_drop]; omega

/-! ## Upload dispatch and the project lifecycle
(scripts/api_server.py, src/api/ingestion_router.py) -/

/-- Split a filename at its LAST dot: some (before, after) with after dot-free,
none when the name has no dot. Underlies both extension notions of the source:
pathlib suffix and str.split. -/
def splitLastDot : List Char → Option (List Char × List Char)
| [] => none
| c :: rest =>
  match splitLastDot rest with
  | some (pre, post) => some (c :: pre, post)
  | none => if c = '.' then some ([], rest) else none

/-- Python filename.split('.')[-1].lower() (src/api/ingestion_router.py
line 52): the text after the last dot, or the whole name when it has no dot,
lowercased. -/
def routerExt (f : List Char) : List Char :=
(match splitLastDot f with
 | some p => p.2
 | none => f).map Char.toLower

/-- pathlib Path(filename).suffix: "." plus the text after the last dot, but
only when that dot is neither the first nor the last character; otherwise
empty. -/
def pathSuffix (f : List Char) : List Char :=
match splitLastDot f with
| some (pre, post) => if pre ≠ [] ∧ post ≠ [] then '.' :: post else []
| none => []

/-- validate_file_type (file_processors_complete.py lines 19-22):
Path(filename).suffix.lower().lstrip('.') in allowed_extensions. -/
def validate_file_type (f : List Char) (allowed : List (List Char)) : Bool :=
allowed.contains (((pathSuffix f).map Char.toLower).dropWhile (· = '.'))

/-- Project lifecycle status values. -/
inductive ProjStatus where
| pending
| processing
| completed
| failed
deriving DecidableEq, Repr

/-- Modelled from the spec: the ProjectLifecycle start state. Project creation
sets status `pending` (spec section 4.6; the process_mining.projects schema the
API server writes to is not part of the repository snapshot, only its callers
and tests are, and the tests assert a fresh project reads back `pending`). -/
def creationStatus : ProjStatus := .pending

/-- Outcome of an upload request handler. -/
inductive UploadOutcome where
| ok
| clientError (code : Nat)
| serverError (code : Nat)
deriving DecidableEq, Repr

/-- Which steps of the try block of upload_structured_data succeed in a given
run. Each flag is an exception point of the source: saving the uploaded bytes
(lines 281-286), process_structured_file (lines 292-297), and the follow-up
project-row update (lines 300-304). -/
structure RunCond where
projectExists : Bool
saveOk : Bool
processOk : Bool
updateOk : Bool
deriving DecidableEq, Repr

/-- upload_structured_data (scripts/api_server.py lines 253-324): reject bad
extensions (400) and unknown projects (404) before anything else; then inside
try: save the file, set status processing, process, update the project row, set
status completed; any exception in the try block sets status failed and returns
500. The first component lists the project-status writes in order. -/
def upload_structured_data (f : List Char) (r : RunCond) :
    List ProjStatus × UploadOutcome :=
if ¬ validate_file_type f [['c','s','v'], ['x','l','s','x'], ['x','l','s']] then
  ([], .clientError 400)
else if ¬ r.projectExists then ([], .clientError 404)
else if ¬ r.saveOk then ([.failed], .serverError 500)
else if ¬ r.processOk then ([.processing, .failed], .serverError 500)
else if ¬ r.updateOk then ([.processing, .failed], .serverError 500)
else ([.processing, .completed], .ok)

/-- upload_unstructured_data (scripts/api_server.py lines 330-397): identical
control flow with the unstructured extension list txt/docx/pdf. -/
def upload_unstructured_data (f : List Char) (r : RunCond) :
    List ProjStatus × UploadOutcome :=
if ¬ validate_file_type f [['t','x','t'], ['d','o','c','x'], ['p','d','f']] then
  ([], .clientError 400)
else if ¬ r.projectExists then ([], .clientError 404)
else if ¬ r.saveOk then ([.failed], .serverError 500)
else if ¬ r.processOk then ([.processing, .failed], .serverError 500)
else if ¬ r.updateOk then ([.processing, .failed], .serverError 500)
else ([.processing, .completed], .ok)

/-- The transitions the lifecycle state machine allows:
pending → processing → completed | failed. -/
def lifecycleEdge : ProjStatus → ProjStatus → Bool
| .pending, .processing => true
| .processing, .completed => true
| .processing, .failed => true
| _, _ => false

/-- Every adjacent pair of the observed status sequence is an allowed
lifecycle transition. -/
def lifecycleChainOk : List ProjStatus → Bool
| [] => true
| [_] => true
| a :: b :: rest => lifecycleEdge a b && lifecycleChainOk (b :: rest)

/-- Boolean subsequence test. -/
def isSubseqOf : List ProjStatus → List ProjStatus → Bool
| [], _ => true
| _ :: _, [] => false
| a :: l, b :: m => if a = b then isSubseqOf l m else isSubseqOf (a :: l) m

/-- Observable effects of the combined ingestion endpoint. -/
inductive RouterAction where
| readFile
| dispatchStructured
| dispatchUnstructured
deriving DecidableEq, Repr

/-- Result of the combined ingestion endpoint. -/
inductive RouterResult where
| created
| httpError (code : Nat)
deriving DecidableEq, Repr

/-- upload_file_for_processing (src/api/ingestion_router.py lines 28-79): files
over 50 MB are rejected with 413 before anything else happens; otherwise the
bytes are read, the extension dispatches to the structured (csv/xlsx/xls) or
unstructured (txt/docx) service path, and any other extension is rejected with
400. The action list records what the handler did before returning. -/
def upload_file_for_processing (size : Nat) (f : List Char) :
    List RouterAction × RouterResult :=
if 50 * 1024 * 1024 < size then ([], .httpError 413)
else
  let ext := routerExt f
  if [['c','s','v'], ['x','l','s','x'], ['x','l','s']].contains ext then
    ([.readFile, .dispatchStructured], .created)
  else if [['t','x','t'], ['d','o','c','x']].contains ext then
    ([.readFile, .dispatchUnstructured], .created)
  else ([.readFile], .httpError 400)

/-! ## Theorems -/

/-- The validator accepts exactly when every required column is present after
name normalization. -/
theorem validate_fst_iff (names : List String) :
    (validate_event_log_schema names).1 = true ↔
      ∀ c ∈ REQUIRED_COLUMNS, c ∈ names.map normalizeCol := by
  simp [validate_event_log_schema, List.isEmpty_iff, List.filter_eq_nil_iff]

/-- A monadic map over a list whose every element succeeds keeps the
length. -/
theorem length_filterMap_eq_of_all {α β : Type} (f : α → Option β) (l : List α)
    (h : ∀ a ∈ l, (f a).isSome) : (l.filterMap f).length = l.length := by
  induction l with
  | nil => rfl
  | cons x xs ih =>
    rw [List.filterMap_cons]
    cases hx : f x with
    | none =>
      have hcontra := h x (List.mem_cons_self x xs)
      rw [hx] at hcontra
      simp at hcontra
    | some y =>
      dsimp only
      rw [List.length_cons, List.length_cons,
        ih (fun a ha => h a (List.mem_cons_of_mem x ha))]

/-- One failing element makes filterMap strictly shorter. -/
theorem length_filterMap_lt_of_none {α β : Type} (f : α → Option β) (l : List α)
    (a : α) (ha : a ∈ l) (hf : f a = none) : (l.filterMap f).length < l.length := by
  induction l with
  | nil => cases ha
  | cons x xs ih =>
    rw [List.filterMap_cons]
    rcases List.mem_cons.mp ha with h | h
    · subst h
      rw [hf]
      dsimp only
      rw [List.length_cons]
      exact Nat.lt_succ_of_le (List.length_filterMap_le f xs)
    · cases hx : f x with
      | none =>
        dsimp only
        rw [List.length_cons]
        exact Nat.lt_succ_of_lt (ih h)
      | some y =>
        dsimp only
        rw [List.length_cons, List.length_cons]
        exact Nat.succ_lt_succ (ih h)

/-- When every non-null cell of the column is a parsed timestamp, the
min/max isoformat succeeds. -/
theorem timestampBoundIso_ok_of_parsed (col : List Cell) (b : Bool)
    (h : ∀ c ∈ col, c = Cell.null ∨ (dtTuple c).isSome) :
    ∃ s, timestampBoundIso col b = .ok s := by
  rw [timestampBoundIso]
  have hall : ∀ c ∈ col.filter (fun c => !(c == Cell.null)), (dtTuple c).isSome := by
    intro c hc
    have hm := List.mem_filter.mp hc
    rcases h c hm.1 with hnull | hsome
    · subst hnull; simp at hm
    · exact hsome
  rw [if_pos (length_filterMap_eq_of_all dtTuple _ hall)]
  cases (if b then foldBound dtLeB (List.filterMap dtTuple
      (col.filter (fun c => !(c == Cell.null))))
    else foldBound (fun a b => dtLeB b a) (List.filterMap dtTuple
      (col.filter (fun c => !(c == Cell.null))))) with
  | none => exact ⟨"NaT", rfl⟩
  | some t => exact ⟨isoformatDT t, rfl⟩

/-- A non-null cell that is not a parsed timestamp makes the min/max
isoformat raise AttributeError. -/
theorem timestampBoundIso_error_of_raw (col : List Cell) (b : Bool) (c : Cell)
    (hc : c ∈ col) (hnn : c ≠ Cell.null) (hdt : dtTuple c = none) :
    timestampBoundIso col b
      = .error "AttributeError: str object has no attribute isoformat" := by
  rw [timestampBoundIso]
  have hmem : c ∈ col.filter (fun c => !(c == Cell.null)) :=
    List.mem_filter.mpr ⟨hc, by simp [hnn]⟩
  rw [if_neg (Nat.ne_of_lt (length_filterMap_lt_of_none dtTuple _ c hmem hdt))]

/-- Metrics succeed whenever the timestamp column carries only parsed
timestamps and nulls (in particular after a successful conversion). -/
theorem computeMetrics_ok_of_parsed (df : Table)
    (h : ∀ c ∈ (df.getCol "timestamp").getD [], c = Cell.null ∨ (dtTuple c).isSome) :
    (computeMetrics df).isOk = true := by
  rw [computeMetrics]
  by_cases hts : df.names.contains "timestamp"
  · rw [if_pos hts]
    by_cases hn : 0 < df.nrows
    · rw [if_pos hn]
      obtain ⟨lo, hlo⟩ := timestampBoundIso_ok_of_parsed _ true h
      obtain ⟨hi, hhi⟩ := timestampBoundIso_ok_of_parsed _ false h
      rw [hlo, hhi]
      rfl
    · rw [if_neg hn]
      rfl
  · rw [if_neg hts]
    rfl

/-- Metrics raise AttributeError on a non-empty table whose timestamp column
still holds a raw (non-null, unparsed) value. -/
theorem computeMetrics_error_of_raw (df : Table)
    (hts : df.names.contains "timestamp") (hn : 0 < df.nrows) (c : Cell)
    (hc : c ∈ (df.getCol "timestamp").getD []) (hnn : c ≠ Cell.null)
    (hdt : dtTuple c = none) :
    computeMetrics df
      = .error "AttributeError: str object has no attribute isoformat" := by
  rw [computeMetrics, if_pos hts, if_pos hn,
    timestampBoundIso_error_of_raw _ true c hc hnn hdt]
  cases timestampBoundIso ((df.getCol "timestamp").getD []) false <;> rfl

/-- C1 counterexample: a one-row table whose columns are exactly case_id,
activity and timestamp passes validation, yet normalization FAILS when the
timestamp value "x" defeats every parser: the column survives as raw strings
and the metrics step raises AttributeError at
df[timestamp].min().isoformat() — so required columns present does not imply
success, and the exactly-three-columns table does not always normalize. -/
theorem required_present_but_metrics_crash :
    (validate_event_log_schema (Table.names ⟨[("case_id", [Cell.str "C1"]),
      ("activity", [Cell.str "A"]), ("timestamp", [Cell.str "x"])]⟩)).1 = true ∧
    process_structured_data isoParseCellImpl
      ⟨[("case_id", [Cell.str "C1"]), ("activity", [Cell.str "A"]),
        ("timestamp", [Cell.str "x"])]⟩
      = .error "AttributeError: str object has no attribute isoformat" := by
  exact ⟨by decide, by decide⟩

/-- C1 amended: validation fails, with the SchemaValidationError-class error
naming exactly the missing column(s), if and only if one of case_id, activity,
timestamp is absent after column-name normalization; when all three are
present the pipeline runs, and it succeeds provided the metrics step does not
raise — which it does not whenever the transformed timestamp column holds only
parsed timestamps and nulls, but does (AttributeError at
df[timestamp].min().isoformat()) on a non-empty table whose timestamp column
survived as raw values. -/
theorem validation_rejection_and_metrics_gate (isoParse : Cell → Option Cell)
    (t : Table) :
    (∀ c, c ∈ (validate_event_log_schema t.names).2 ↔
      (c ∈ REQUIRED_COLUMNS ∧ c ∉ t.names.map normalizeCol)) ∧
    ((validate_event_log_schema t.names).2 ≠ [] →
      process_structured_data isoParse t =
        .error ("Missing required columns: " ++
          String.intercalate ", " (validate_event_log_schema t.names).2)) ∧
    ((validate_event_log_schema t.names).1 = true →
      (∀ c ∈ ((transform_to_canonical_format isoParse
          (sanitize_dataframe t)).getCol "timestamp").getD [],
        c = Cell.null ∨ (dtTuple c).isSome) →
      (process_structured_data isoParse t).isOk = true) ∧
    ((validate_event_log_schema t.names).1 = true →
      (transform_to_canonical_format isoParse
        (sanitize_dataframe t)).names.contains "timestamp" →
      0 < (transform_to_canonical_format isoParse (sanitize_dataframe t)).nrows →
      ∀ c ∈ ((transform_to_canonical_format isoParse
          (sanitize_dataframe t)).getCol "timestamp").getD [],
        c ≠ Cell.null → dtTuple c = none →
      process_structured_data isoParse t
        = .error "AttributeError: str object has no attribute isoformat") := by
  refine ⟨?_, ?_, ?_, ?_⟩
  · intro c
    simp [validate_event_log_schema, List.mem_filter]
  · intro h
    have hne : ¬ (validate_event_log_schema t.names).1 = true := by
      simp only [validate_event_log_schema, List.isEmpty_iff] at h ⊢
      exact h
    unfold process_structured_data
    rw [if_neg hne]
  · intro hv hcol
    unfold process_structured_data
    rw [if_pos hv]
    cases hm : computeMetrics (transform_to_canonical_format isoParse
        (sanitize_dataframe t)) with
    | ok m => rfl
    | error e =>
      have := computeMetrics_ok_of_parsed _ hcol
      rw [hm] at this
      cases this
  · intro hv hts hn c hc hnn hdt
    unfold process_structured_data
    rw [if_pos hv, computeMetrics_error_of_raw _ hts hn c hc hnn hdt]

/-- Witness for C1 amended at concrete tables: a table offering only case_id
fails naming exactly activity and timestamp; the same three-column table
succeeds when its timestamp parses and crashes with AttributeError when it
does not. -/
theorem validation_rejection_and_metrics_gate_witness :
    process_structured_data isoParseCellImpl ⟨[("case_id", [])]⟩ =
      .error "Missing required columns: activity, timestamp" ∧
    (process_structured_data isoParseCellImpl
      ⟨[("case_id", [Cell.str "C1"]), ("activity", [Cell.str "A"]),
        ("timestamp", [Cell.str "2024-01-01T10:00:00"])]⟩).isOk = true ∧
    process_structured_data isoParseCellImpl
      ⟨[("case_id", [Cell.str "C1"]), ("activity", [Cell.str "A"]),
        ("timestamp", [Cell.str "x"])]⟩
      = .error "AttributeError: str object has no attribute isoformat" := by
  refine ⟨?_, ?_, ?_⟩
  · have h := (validation_rejection_and_metrics_gate isoParseCellImpl
      ⟨[("case_id", [])]⟩).2.1 (by decide)
    rw [h]
    rfl
  · exact (validation_rejection_and_metrics_gate isoParseCellImpl
      ⟨[("case_id", [Cell.str "C1"]), ("activity", [Cell.str "A"]),
        ("timestamp", [Cell.str "2024-01-01T10:00:00"])]⟩).2.2.1
      (by decide) (by decide)
  · exact (validation_rejection_and_metrics_gate isoParseCellImpl
      ⟨[("case_id", [Cell.str "C1"]), ("activity", [Cell.str "A"]),
        ("timestamp", [Cell.str "x"])]⟩).2.2.2
      (by decide) (by decide) (by decide) (Cell.str "x") (by decide)
      (by decide) (by decide)

/-- C2 counterexample: a table whose columns are exactly the XES alias names
case:concept:name, concept:name, time:timestamp does NOT pass validation: the
schema validator reports all three required columns missing, and
process_structured_file rejects it as well, because its alias rename only runs
after its validation. The claim asserts such a table passes validation. -/
theorem alias_named_table_rejected :
    (validate_event_log_schema
      ["case:concept:name", "concept:name", "time:timestamp"]).1 = false ∧
    process_structured_file_check
      ["case:concept:name", "concept:name", "time:timestamp"]
      = .error ["case_id", "activity", "timestamp"] := by decide

/-- C2 amended: lowercase/space-to-underscore normalization does precede
required-column validation, so a table matching the required names up to case
(for example Case_ID) passes; but the alias table is applied only AFTER
validation (process_structured_file renames only once the exact-name check has
succeeded), so a table whose required columns appear only under alias names
fails validation. -/
theorem normalization_before_validation_alias_after (cols : List String) :
    ((validate_event_log_schema cols).1 = true ↔
      ∀ c ∈ REQUIRED_COLUMNS, c ∈ cols.map normalizeCol) ∧
    (∀ res, process_structured_file_check cols = .ok res →
      (∀ c ∈ REQUIRED_COLUMNS, c ∈ cols) ∧
      res = renameColumns COLUMN_MAPPING cols) ∧
    (validate_event_log_schema ["Case_ID", "Activity", "Timestamp"]).1 = true := by
  refine ⟨?_, ?_, by decide⟩
  · simp [validate_event_log_schema, List.isEmpty_iff, List.filter_eq_nil_iff]
  · intro res h
    simp only [process_structured_file_check] at h
    split at h
    · next hcond =>
      refine ⟨?_, by injection h with h2; exact h2.symm⟩
      intro c hc
      have := List.filter_eq_nil_iff.mp (List.isEmpty_iff.mp hcond) c hc
      simpa using this
    · exact absurd h (by simp)

/-- Witness for C2 amended: the mixed-case table passes the schema validator
and a table with the exact required names passes process_structured_file's
check with org:resource renamed by the alias table. -/
theorem normalization_before_validation_alias_after_witness :
    (validate_event_log_schema ["Case_ID", "Activity", "Timestamp"]).1 = true ∧
    (["case_id", "activity", "timestamp", "org:resource"].contains "case_id" ∧
      renameColumns COLUMN_MAPPING ["case_id", "activity", "timestamp", "org:resource"]
        = ["case_id", "activity", "timestamp", "resource"]) := by
  refine ⟨(normalization_before_validation_alias_after []).2.2, ?_, ?_⟩
  · decide
  · have h := (normalization_before_validation_alias_after
      ["case_id", "activity", "timestamp", "org:resource"]).2.1
      (renameColumns COLUMN_MAPPING ["case_id", "activity", "timestamp", "org:resource"])
      (by decide)
    rw [h.2]
    decide

/-- C9: an upload whose filename extension (lowercased; both as the text after
the last dot and as the pathlib suffix, the two ways the source computes it) is
not among csv, xlsx, xls, txt, docx, pdf is rejected with an unsupported-format
client error by the structured endpoint, the unstructured endpoint and the
combined ingestion endpoint, with no project-status write and no processing —
the request is rejected before processing starts. -/
theorem unknown_extension_rejected_before_processing (f : List Char) (r : RunCond)
    (size : Nat)
    (h1 : ¬ [['c','s','v'], ['x','l','s','x'], ['x','l','s'],
      ['t','x','t'], ['d','o','c','x'], ['p','d','f']].contains (routerExt f))
    (h2 : ¬ [['c','s','v'], ['x','l','s','x'], ['x','l','s'],
      ['t','x','t'], ['d','o','c','x'], ['p','d','f']].contains
        (((pathSuffix f).map Char.toLower).dropWhile (· = '.')))
    (hsize : size ≤ 50 * 1024 * 1024) :
    upload_structured_data f r = ([], .clientError 400) ∧
    upload_unstructured_data f r = ([], .clientError 400) ∧
    upload_file_for_processing size f = ([.readFile], .httpError 400) := by
  simp only [List.contains, List.elem_eq_mem, List.mem_cons, List.mem_singleton,
    decide_eq_true_eq, not_or] at h1 h2
  obtain ⟨a1, a2, a3, a4, a5, a6⟩ := h1
  obtain ⟨b1, b2, b3, b4, b5, b6⟩ := h2
  refine ⟨?_, ?_, ?_⟩
  · simp only [upload_structured_data, validate_file_type]
    rw [if_pos]
    simp only [List.contains, List.elem_eq_mem, List.mem_cons, List.mem_singleton,
      decide_eq_true_eq, not_or]
    simp_all
  · simp only [upload_unstructured_data, validate_file_type]
    rw [if_pos]
    simp only [List.contains, List.elem_eq_mem, List.mem_cons, List.mem_singleton,
      decide_eq_true_eq, not_or]
    simp_all
  · simp only [upload_file_for_processing]
    rw [if_neg (by omega)]
    rw [if_neg, if_neg]
    · simp only [List.contains, List.elem_eq_mem, List.mem_cons, List.mem_singleton,
        decide_eq_true_eq, not_or]
      simp_all
    · simp only [List.contains, List.elem_eq_mem, List.mem_cons, List.mem_singleton,
        decide_eq_true_eq, not_or]
      simp_all

/-- Witness for C9: a .exe upload is rejected everywhere with no status
write. -/
theorem unknown_extension_rejected_before_processing_witness :
    upload_structured_data ("file.exe".toList) ⟨true, true, true, true⟩
      = ([], .clientError 400) ∧
    upload_unstructured_data ("file.exe".toList) ⟨true, true, true, true⟩
      = ([], .clientError 400) ∧
    upload_file_for_processing 10 ("file.exe".toList)
      = ([.readFile], .httpError 400) :=
  unknown_extension_rejected_before_processing ("file.exe".toList)
    ⟨true, true, true, true⟩ 10 (by decide) (by decide) (by decide)

/-- C5 counterexample: when the upload handler fails while saving the incoming
file — before it has written the `processing` status — the except arm marks
the project `failed` directly, so the observed sequence is pending, failed:
the transition into a terminal state skips `processing`, which the claim says
never happens. -/
theorem early_failure_skips_processing :
    (upload_structured_data ("a.csv".toList) ⟨true, false, true, true⟩).1
      = [.failed] ∧
    lifecycleChainOk (creationStatus ::
      (upload_structured_data ("a.csv".toList) ⟨true, false, true, true⟩).1)
      = false := by decide

/-- C5 amended: the observed status sequence is always a subsequence of
pending, processing, completed or of pending, processing, failed; completed is
never observed after failed and is reached only through processing; any
exception inside the ingestion try block leaves the project in failed — but an
exception before the processing write (such as a failure saving the upload)
moves the project directly from pending to failed, skipping processing. -/
theorem lifecycle_subsequence (f : List Char) (r : RunCond) :
    (isSubseqOf (creationStatus :: (upload_structured_data f r).1)
        [.pending, .processing, .completed] = true ∨
      isSubseqOf (creationStatus :: (upload_structured_data f r).1)
        [.pending, .processing, .failed] = true) ∧
    ((upload_structured_data f r).2 = .serverError 500 →
      ((upload_structured_data f r).1).getLast? = some .failed) ∧
    (ProjStatus.completed ∈ (upload_structured_data f r).1 →
      (upload_structured_data f r).1 = [.processing, .completed]) ∧
    (validate_file_type f [['c','s','v'], ['x','l','s','x'], ['x','l','s']] = true →
      r.projectExists = true →
      ¬ (r.saveOk = true ∧ r.processOk = true ∧ r.updateOk = true) →
      ((upload_structured_data f r).1).getLast? = some .failed) := by
  obtain ⟨pe, so, po, uo⟩ := r
  by_cases hv : validate_file_type f [['c','s','v'], ['x','l','s','x'], ['x','l','s']] = true
  all_goals
    cases pe <;> cases so <;> cases po <;> cases uo <;>
      simp [upload_structured_data, hv, isSubseqOf, creationStatus]

/-- Witness for C5 amended: a run in which processing itself raises shows the
sequence pending, processing, failed with the project left failed. -/
theorem lifecycle_subsequence_witness :
    (upload_structured_data ("a.csv".toList) ⟨true, true, false, true⟩).1
      = [.processing, .failed] ∧
    isSubseqOf (creationStatus ::
        (upload_structured_data ("a.csv".toList) ⟨true, true, false, true⟩).1)
      [.pending, .processing, .failed] = true ∧
    ((upload_structured_data ("a.csv".toList) ⟨true, true, false, true⟩).1).getLast?
      = some .failed := by
  refine ⟨by decide, ?_, ?_⟩
  · rcases (lifecycle_subsequence ("a.csv".toList) ⟨true, true, false, true⟩).1 with h | h
    · exact absurd h (by decide)
    · exact h
  · exact (lifecycle_subsequence ("a.csv".toList) ⟨true, true, false, true⟩).2.2.2
      (by decide) (by decide) (by decide)

/-- C4: the code contains no overlap >= chunk_size guard at all. On the text
"abcdef" with chunk_size = 5 and overlap = 5 the loop window advances from
start 0 to end 5 and then back to start 5 - 5 = 0 forever: the loop body never
finishes no matter how much fuel it is given (so `chunk_document` yields none),
where the spec requires the call to be rejected as a configuration error
before the loop runs. -/
theorem overlap_eq_chunk_size_loops_forever :
    (∀ fuel, chunkSpans ("abcdef".toList) 5 5 fuel 0 = none) ∧
    chunk_document ("abcdef".toList) 5 5 = none := by
  have hloop : ∀ fuel, chunkSpans ("abcdef".toList) 5 5 fuel 0 = none := by
    intro fuel
    induction fuel with
    | zero => rfl
    | succ n ih =>
      have hw : windowEnd ("abcdef".toList) 5 0 = 5 := by rfl
      simp only [chunkSpans, hw]
      rw [if_pos (by decide), if_pos (by decide)]
      rw [ih]
  exact ⟨hloop, by simp only [chunk_document]; rw [if_neg (by decide), hloop]; rfl⟩

/-- Zipping a list with a mapped copy of itself pairs every element with its
image. -/
theorem zip_self_map {α β : Type} (l : List α) (g : α → β) :
    l.zip (l.map g) = l.map (fun a => (a, g a)) := by
  induction l with
  | nil => rfl
  | cons x xs ih => simp [ih]

/-- The batched embedding loop stores exactly one embedding per fetched event,
in order, regardless of the batch boundaries. -/
theorem store_event_embeddings_eq_map (embed : String → List Int)
    (events : List EventRec) :
    store_event_embeddings embed events =
      events.map (fun e => (e.id, create_event_summary e, embed (create_event_summary e))) := by
  generalize hn : events.length = n
  induction n using Nat.strong_induction_on generalizing events with
  | _ n ih =>
    cases events with
    | nil => rw [store_event_embeddings]; rfl
    | cons e rest =>
      rw [store_event_embeddings]
      rw [List.map_map, zip_self_map, List.map_map]
      rw [ih (((e :: rest).drop 100).length) (by simp at hn ⊢; omega) _ rfl]
      simp only [Function.comp_def]
      rw [← List.map_append, List.take_append_drop]

/-- C6: every structured ingestion stores exactly one event embedding per
persisted event, in order, whose summary text is the deterministic string
"Case {case_id} | Activity: {activity} | by {resource} | at {timestamp}" built
by create_event_summary, with the "by {resource}" and "at {timestamp}" (and
"Activity:") parts omitted when the corresponding field is absent. -/
theorem one_embedding_per_event_deterministic (embed : String → List Int)
    (events : List EventRec) :
    (store_event_embeddings embed events).length = events.length ∧
    store_event_embeddings embed events
      = events.map (fun e => (e.id, create_event_summary e, embed (create_event_summary e))) ∧
    (∀ i c a r t, a ≠ "" → r ≠ "" → t ≠ "" →
      create_event_summary ⟨i, c, some a, some r, some t⟩
        = "Case " ++ c ++ " | Activity: " ++ a ++ " | by " ++ r ++ " | at " ++ t) ∧
    (∀ i c a t, a ≠ "" → t ≠ "" →
      create_event_summary ⟨i, c, some a, none, some t⟩
        = "Case " ++ c ++ " | Activity: " ++ a ++ " | at " ++ t) ∧
    (∀ i c, create_event_summary ⟨i, c, none, none, none⟩ = "Case " ++ c) := by
  refine ⟨by rw [store_event_embeddings_eq_map]; simp,
    store_event_embeddings_eq_map embed events, ?_, ?_, ?_⟩
  · intro i c a r t ha hr ht
    simp [create_event_summary, truthyOpt, ha, hr, ht, String.intercalate,
      String.intercalate.go, List.intersperse, String.ext_iff, String.data_append]
  · intro i c a t ha ht
    simp [create_event_summary, truthyOpt, ha, ht, String.intercalate,
      String.intercalate.go, List.intersperse, String.ext_iff, String.data_append]
  · intro i c
    simp [create_event_summary, truthyOpt, String.intercalate,
      String.intercalate.go]

/-- Witness for C6: two concrete events produce exactly one embedding each
with the documented summary strings. -/
theorem one_embedding_per_event_deterministic_witness :
    store_event_embeddings (fun s => [Int.ofNat s.length])
      [⟨1, "C1", some "Start", some "Alice", some "2024-01-01 10:00:00"⟩,
       ⟨2, "C2", some "End", none, some "2024-01-02 10:00:00"⟩]
      = [(1, "Case C1 | Activity: Start | by Alice | at 2024-01-01 10:00:00",
          [Int.ofNat 61]),
         (2, "Case C2 | Activity: End | at 2024-01-02 10:00:00",
          [Int.ofNat 48])] := by
  have h := one_embedding_per_event_deterministic (fun s => [Int.ofNat s.length])
    [⟨1, "C1", some "Start", some "Alice", some "2024-01-01 10:00:00"⟩,
     ⟨2, "C2", some "End", none, some "2024-01-02 10:00:00"⟩]
  rw [h.2.1]
  have h1 := h.2.2.1 1 "C1" "Start" "Alice" "2024-01-01 10:00:00"
    (by decide) (by decide) (by decide)
  have h2 := h.2.2.2.1 2 "C2" "End" "2024-01-02 10:00:00" (by decide) (by decide)
  simp only [List.map_cons, List.map_nil, h1, h2]
  decide

/-! ### Table plumbing lemmas for the canonical transformation -/

/-- Setting one column leaves every other column unchanged. -/
theorem getCol_setCol_ne (t : Table) (n m : String) (vals : List Cell) (h : m ≠ n) :
    (t.setCol n vals).getCol m = t.getCol m := by
  simp only [Table.getCol, Table.setCol, List.find?_map]
  have hp : ((fun (p : String × List Cell) => decide (p.1 = m)) ∘
      (fun p => if p.1 = n then (p.1, vals) else p)) =
      (fun p => decide (p.1 = m)) := by
    funext p
    by_cases hc : p.1 = n <;> simp [hc]
  rw [hp]
  cases hf : t.cols.find? (fun p => decide (p.1 = m)) with
  | none => rfl
  | some p =>
    have := List.find?_some hf
    simp at this
    simp [hf, this, h]

/-- Setting a present column stores exactly the new values. -/
theorem getCol_setCol_self (t : Table) (n : String) (vals : List Cell)
    (h : (t.getCol n).isSome) :
    (t.setCol n vals).getCol n = some vals := by
  simp only [Table.getCol, Table.setCol, List.find?_map]
  have hp : ((fun (p : String × List Cell) => decide (p.1 = n)) ∘
      (fun p => if p.1 = n then (p.1, vals) else p)) =
      (fun p => decide (p.1 = n)) := by
    funext p
    by_cases hc : p.1 = n <;> simp [hc]
  rw [hp]
  simp only [Table.getCol] at h
  cases hf : t.cols.find? (fun p => decide (p.1 = n)) with
  | none => rw [hf] at h; simp at h
  | some p =>
    have := List.find?_some hf
    simp at this
    simp [hf, this]

/-- Updating one column leaves every other column unchanged. -/
theorem getCol_updateCol_ne (t : Table) (n m : String) (f : Cell → Cell) (h : m ≠ n) :
    (t.updateCol n f).getCol m = t.getCol m := by
  simp only [Table.getCol, Table.updateCol, List.find?_map]
  have hp : ((fun (p : String × List Cell) => decide (p.1 = m)) ∘
      (fun p => if p.1 = n then (p.1, p.2.map f) else p)) =
      (fun p => decide (p.1 = m)) := by
    funext p
    by_cases hc : p.1 = n <;> simp [hc]
  rw [hp]
  cases hf : t.cols.find? (fun p => decide (p.1 = m)) with
  | none => rfl
  | some p =>
    have := List.find?_some hf
    simp at this
    simp [hf, this, h]

/-- Updating a column maps the function over its values. -/
theorem getCol_updateCol_self (t : Table) (n : String) (f : Cell → Cell) :
    (t.updateCol n f).getCol n = (t.getCol n).map (List.map f) := by
  simp only [Table.getCol, Table.updateCol, List.find?_map]
  have hp : ((fun (p : String × List Cell) => decide (p.1 = n)) ∘
      (fun p => if p.1 = n then (p.1, p.2.map f) else p)) =
      (fun p => decide (p.1 = n)) := by
    funext p
    by_cases hc : p.1 = n <;> simp [hc]
  rw [hp]
  cases hf : t.cols.find? (fun p => decide (p.1 = n)) with
  | none => rfl
  | some p =>
    have := List.find?_some hf
    simp at this
    simp [hf, this]

/-- A column is absent exactly when its name is not among the table's names. -/
theorem getCol_eq_none_iff (t : Table) (m : String) :
    t.getCol m = none ↔ ¬ t.names.contains m := by
  simp [Table.getCol, Table.names, List.find?_eq_none, List.mem_map]
  constructor
  · intro h x hx
    exact h m x hx rfl
  · intro h a b hab ham
    exact h b (ham ▸ hab)

/-- Appending a fresh column leaves present columns unchanged. -/
theorem getCol_addConstCol_of_isSome (t : Table) (n m : String) (d : Cell)
    (h : (t.getCol m).isSome) :
    (t.addConstCol n d).getCol m = t.getCol m := by
  simp only [Table.getCol, Table.addConstCol, List.find?_append]
  cases hf : t.cols.find? (fun p => decide (p.1 = m)) with
  | none => rw [Table.getCol, hf] at h; simp at h
  | some p => simp

/-- Appending a fresh column leaves differently named lookups unchanged. -/
theorem getCol_addConstCol_ne (t : Table) (n m : String) (d : Cell) (h : m ≠ n) :
    (t.addConstCol n d).getCol m = t.getCol m := by
  simp only [Table.getCol, Table.addConstCol, List.find?_append]
  cases hf : t.cols.find? (fun p => decide (p.1 = m)) with
  | none => simp [Ne.symm h]
  | some p => simp

/-- Appending an absent column makes it readable with the constant value in
every row. -/
theorem getCol_addConstCol_self (t : Table) (n : String) (d : Cell)
    (h : t.getCol n = none) :
    (t.addConstCol n d).getCol n = some (List.replicate t.nrows d) := by
  simp only [Table.getCol, Table.addConstCol, List.find?_append]
  simp only [Table.getCol] at h
  cases hf : t.cols.find? (fun p => decide (p.1 = n)) with
  | none => simp
  | some p => rw [hf] at h; simp at h

/-- Appending a column does not change the row count. -/
theorem nrows_addConstCol (t : Table) (n : String) (d : Cell) :
    (t.addConstCol n d).nrows = t.nrows := by
  simp only [Table.nrows, Table.addConstCol]
  cases t.cols with
  | nil => simp
  | cons p rest => simp

/-- A successful monadic map preserves length. -/
theorem mapM_some_length {α β : Type} (f : α → Option β) (l : List α)
    (l2 : List β) (h : l.mapM f = some l2) : l2.length = l.length := by
  induction l generalizing l2 with
  | nil => rw [List.mapM_nil] at h; cases h; rfl
  | cons x xs ih =>
    rw [List.mapM_cons] at h
    cases hx : f x with
    | none => rw [hx] at h; simp at h
    | some y =>
      rw [hx] at h
      cases hxs : xs.mapM f with
      | none => rw [hxs] at h; simp at h
      | some ys =>
        rw [hxs] at h
        simp at h
        simp [← h, ih ys hxs]

/-- One failing element fails the whole monadic map. -/
theorem mapM_none_of_mem {α β : Type} (f : α → Option β) (l : List α) (c : α)
    (hc : c ∈ l) (hf : f c = none) : l.mapM f = none := by
  induction l with
  | nil => cases hc
  | cons x xs ih =>
    rw [List.mapM_cons]
    rcases List.mem_cons.mp hc with h | h
    · subst h; simp [hf]
    · cases hx : f x
      · simp
      · cases hxs : xs.mapM f with
        | none => simp
        | some ys => rw [ih h] at hxs; cases hxs

/-- The fallback chain preserves the column length. -/
theorem length_tryFallbackFormats (fmts : List TsFormat) (col : List Cell) :
    (tryFallbackFormats fmts col).length = col.length := by
  induction fmts with
  | nil => rfl
  | cons f fs ih =>
    rw [tryFallbackFormats]
    cases hm : col.mapM (fmtParseCell f) with
    | none => exact ih
    | some parsed => exact mapM_some_length _ _ _ hm

/-- Timestamp conversion preserves the column length. -/
theorem length_parseTimestampColumn (isoParse : Cell → Option Cell) (col : List Cell) :
    (parseTimestampColumn isoParse col).length = col.length := by
  rw [parseTimestampColumn]
  cases hm : col.mapM isoParse with
  | none => exact length_tryFallbackFormats _ _
  | some parsed => exact mapM_some_length _ _ _ hm

/-- The optional-column fold leaves present columns unchanged. -/
theorem fold_preserves_getCol (opts : List (String × Cell)) (acc : Table)
    (m : String) (h : (acc.getCol m).isSome) :
    (opts.foldl (fun (acc : Table) pd =>
      if acc.names.contains pd.1 then acc else acc.addConstCol pd.1 pd.2) acc).getCol m
      = acc.getCol m := by
  induction opts generalizing acc with
  | nil => rfl
  | cons p rest ih =>
    rw [List.foldl_cons]
    by_cases hc : acc.names.contains p.1
    · rw [if_pos hc]
      exact ih acc h
    · rw [if_neg hc]
      rw [ih _ (by rw [getCol_addConstCol_of_isSome acc p.1 m p.2 h]; exact h)]
      exact getCol_addConstCol_of_isSome acc p.1 m p.2 h

/-- The optional-column fold fills every absent optional column with its
default in all rows. -/
theorem fold_adds_missing (opts : List (String × Cell)) (acc : Table)
    (n : String) (d : Cell) (hmem : (n, d) ∈ opts) (hnone : acc.getCol n = none)
    (hnodup : (opts.map Prod.fst).Nodup) :
    (opts.foldl (fun (acc : Table) pd =>
      if acc.names.contains pd.1 then acc else acc.addConstCol pd.1 pd.2) acc).getCol n
      = some (List.replicate acc.nrows d) := by
  induction opts generalizing acc with
  | nil => cases hmem
  | cons p rest ih =>
    rw [List.foldl_cons]
    rcases List.mem_cons.mp hmem with h | h
    · subst h
      have hc : ¬ acc.names.contains n := (getCol_eq_none_iff acc n).mp hnone
      rw [if_neg (by simpa using hc)]
      have hself := getCol_addConstCol_self acc n d hnone
      rw [fold_preserves_getCol rest _ n (by rw [hself]; rfl)]
      exact hself
    · have hne : n ≠ p.1 := by
        intro hEq
        have hp1 : p.1 ∈ rest.map Prod.fst :=
          List.mem_map.mpr ⟨(n, d), h, by rw [hEq]⟩
        rw [List.map_cons] at hnodup
        exact (List.nodup_cons.mp hnodup).1 hp1
      by_cases hc : acc.names.contains p.1
      · rw [if_pos hc]
        exact ih acc h hnone
          (by rw [List.map_cons] at hnodup; exact (List.nodup_cons.mp hnodup).2)
      · rw [if_neg hc]
        rw [ih _ h (by rw [getCol_addConstCol_ne acc p.1 n p.2 hne]; exact hnone)
          (by rw [List.map_cons] at hnodup; exact (List.nodup_cons.mp hnodup).2)]
        rw [nrows_addConstCol]

/-- Setting a column's values does not change the column names. -/
theorem names_setCol (t : Table) (n : String) (vals : List Cell) :
    (t.setCol n vals).names = t.names := by
  simp only [Table.names, Table.setCol, List.map_map]
  congr 1
  funext p
  by_cases hc : p.1 = n <;> simp [hc]

/-- The timestamp conversion step does not change the column names. -/
theorem names_applyTimestampParse (isoParse : Cell → Option Cell) (t : Table) :
    (applyTimestampParse isoParse t).names = t.names := by
  rw [applyTimestampParse]
  cases h : t.getCol "timestamp" with
  | none => rfl
  | some col => exact names_setCol t "timestamp" _

/-- The timestamp conversion step leaves other columns unchanged. -/
theorem getCol_applyTimestampParse_ne (isoParse : Cell → Option Cell) (t : Table)
    (m : String) (h : m ≠ "timestamp") :
    (applyTimestampParse isoParse t).getCol m = t.getCol m := by
  rw [applyTimestampParse]
  cases hc : t.getCol "timestamp" with
  | none => rfl
  | some col => exact getCol_setCol_ne t "timestamp" m _ h

/-- The timestamp conversion step converts the timestamp column. -/
theorem getCol_applyTimestampParse_self (isoParse : Cell → Option Cell) (t : Table)
    (col : List Cell) (h : t.getCol "timestamp" = some col) :
    (applyTimestampParse isoParse t).getCol "timestamp"
      = some (parseTimestampColumn isoParse col) := by
  rw [applyTimestampParse, h]
  exact getCol_setCol_self t "timestamp" _ (by rw [h]; rfl)

/-- The timestamp conversion step does not change the row count. -/
theorem nrows_applyTimestampParse (isoParse : Cell → Option Cell) (t : Table) :
    (applyTimestampParse isoParse t).nrows = t.nrows := by
  rw [applyTimestampParse]
  cases h : t.getCol "timestamp" with
  | none => rfl
  | some col =>
    cases tcols : t.cols with
    | nil => rw [Table.getCol, tcols] at h; cases h
    | cons p rest =>
      by_cases hp : p.1 = "timestamp"
      · have hcol : col = p.2 := by
          rw [Table.getCol, tcols] at h
          simp [hp] at h
          exact h.symm
        simp [Table.nrows, Table.setCol, tcols, hp, length_parseTimestampColumn, hcol]
      · simp [Table.nrows, Table.setCol, tcols, hp]

/-- C8: for every normalized table, each optional column absent from the
(name-normalized) input is filled with its documented default — resource
"Unknown", cost 0.0, location "", product_type "" — in every row, and the cost
column is coerced cell-by-cell to numeric, with every non-numeric value
(unparsable string or null) becoming 0.0. -/
theorem optional_defaults_and_cost_coercion (isoParse : Cell → Option Cell) (t : Table) :
    (∀ n d, (n, d) ∈ OPTIONAL_COLUMNS → ¬ (normalizeNames t).names.contains n →
      (transform_to_canonical_format isoParse t).getCol n
        = some (List.replicate (normalizeNames t).nrows d)) ∧
    (∀ cvals, (normalizeNames t).getCol "cost" = some cvals →
      (transform_to_canonical_format isoParse t).getCol "cost"
        = some (cvals.map toNumericFill)) ∧
    (∀ s, parseNumeric s = none → toNumericFill (.str s) = .num 0) ∧
    toNumericFill .null = .num 0 := by
  have hunfold : transform_to_canonical_format isoParse t
      = ((OPTIONAL_COLUMNS.foldl (fun (acc : Table) pd =>
          if acc.names.contains pd.1 then acc else acc.addConstCol pd.1 pd.2)
          (applyTimestampParse isoParse (normalizeNames t))).updateCol
          "cost" toNumericFill) := rfl
  have hnames2 : (applyTimestampParse isoParse (normalizeNames t)).names
      = (normalizeNames t).names := names_applyTimestampParse isoParse _
  have hnr : (applyTimestampParse isoParse (normalizeNames t)).nrows
      = (normalizeNames t).nrows := nrows_applyTimestampParse isoParse _
  refine ⟨?_, ?_, ?_, rfl⟩
  · intro n d hmem hnc
    have hnone2 : (applyTimestampParse isoParse (normalizeNames t)).getCol n = none :=
      (getCol_eq_none_iff _ n).mpr (by rw [hnames2]; exact hnc)
    have hfold := fold_adds_missing OPTIONAL_COLUMNS _ n d hmem hnone2 (by decide)
    rw [hunfold]
    by_cases hcost : n = "cost"
    · subst hcost
      have hd : d = Cell.num 0 := by
        simpa [OPTIONAL_COLUMNS, Prod.ext_iff] using hmem
      rw [getCol_updateCol_self, hfold, hnr, hd]
      rw [Option.map_some', List.map_replicate]
      rfl
    · rw [getCol_updateCol_ne _ _ _ _ hcost, hfold, hnr]
  · intro cvals hc
    have h2 : (applyTimestampParse isoParse (normalizeNames t)).getCol "cost"
        = some cvals := by
      rw [getCol_applyTimestampParse_ne _ _ _ (by decide)]
      exact hc
    have hfold := fold_preserves_getCol OPTIONAL_COLUMNS _ "cost" (by rw [h2]; rfl)
    rw [hunfold, getCol_updateCol_self, hfold, h2]
    rfl
  · intro s hp
    simp [toNumericFill, hp]

/-- Witness for C8: on a one-row table with only case_id/activity/timestamp,
all four optional columns come back default-filled; and concrete cost values
"abc" (non-numeric) and null both coerce to 0.0 while "12.5" converts. -/
theorem optional_defaults_and_cost_coercion_witness :
    (transform_to_canonical_format isoParseCellImpl
      ⟨[("case_id", [Cell.str "C1"])]⟩).getCol "resource"
      = some [Cell.str "Unknown"] ∧
    (transform_to_canonical_format isoParseCellImpl
      ⟨[("case_id", [Cell.str "C1"])]⟩).getCol "cost" = some [Cell.num 0] ∧
    (transform_to_canonical_format isoParseCellImpl
      ⟨[("cost", [Cell.str "abc", Cell.null, Cell.str "12.5"])]⟩).getCol "cost"
      = some [Cell.num 0, Cell.num 0, Cell.num ((25 : Rat) / 2)] ∧
    toNumericFill (.str "abc") = .num 0 := by
  have h1 := (optional_defaults_and_cost_coercion isoParseCellImpl
    ⟨[("case_id", [Cell.str "C1"])]⟩).1
  have h2 := (optional_defaults_and_cost_coercion isoParseCellImpl
    ⟨[("cost", [Cell.str "abc", Cell.null, Cell.str "12.5"])]⟩).2.1
  refine ⟨?_, ?_, ?_, ?_⟩
  · rw [h1 "resource" (Cell.str "Unknown") (by decide) (by decide)]
    rfl
  · rw [h1 "cost" (Cell.num 0) (by decide) (by decide)]
    rfl
  · rw [h2 [Cell.str "abc", Cell.null, Cell.str "12.5"] (by decide)]
    simp [toNumericFill, parseNumeric, pyStrip]
    norm_num
  · exact (optional_defaults_and_cost_coercion isoParseCellImpl
      ⟨[]⟩).2.2.1 "abc" (by decide)

/-- C7 counterexample: a timestamp value no parser accepts does NOT become
null — the try/except chain swallows the failures and leaves the column, and
so the unparsable value, exactly as it was: "garbage" stays the string
"garbage" — and normalization does NOT still succeed: on a one-row table the
raw column then makes the metrics step raise AttributeError, so
process_structured_data fails. -/
theorem unparsable_timestamp_not_nulled :
    parseTimestampColumn isoParseCellImpl [Cell.str "garbage"]
      = [Cell.str "garbage"] ∧
    parseTimestampColumn isoParseCellImpl [Cell.str "garbage"]
      ≠ [Cell.null] ∧
    process_structured_data isoParseCellImpl
      ⟨[("case_id", [Cell.str "C1"]), ("activity", [Cell.str "A"]),
        ("timestamp", [Cell.str "garbage"])]⟩
      = .error "AttributeError: str object has no attribute isoformat" := by
  refine ⟨rfl, ?_, by decide⟩
  intro h
  rw [show parseTimestampColumn isoParseCellImpl [Cell.str "garbage"]
    = [Cell.str "garbage"] from rfl] at h
  cases h

/-- C7 amended: timestamp parsing first tries the default ISO parser on the
whole column as one unit, then the fallback formats %Y-%m-%dT%H:%M:%S,
%Y-%m-%d %H:%M:%S, %Y/%m/%d %H:%M:%S in that fixed order, each again on the
whole column; the attempts are all-or-nothing per column, and when a value
matches none of them the whole column — including the unparsable value — is
left unchanged (raw, not null); the transformed table carries that column
as-is, but the unparsable value is NOT non-fatal: the metrics step then
raises AttributeError on any non-empty table, and the process_structured_file
path calls pd.to_datetime with no try/except and no fallbacks, raising
immediately. -/
theorem timestamp_parse_order_and_fallthrough (isoParse : Cell → Option Cell)
    (col : List Cell) :
    (∀ parsed, col.mapM isoParse = some parsed →
      parseTimestampColumn isoParse col = parsed) ∧
    (col.mapM isoParse = none →
      ∀ parsed, col.mapM (fmtParseCell .isoT) = some parsed →
        parseTimestampColumn isoParse col = parsed) ∧
    (col.mapM isoParse = none → col.mapM (fmtParseCell .isoT) = none →
      ∀ parsed, col.mapM (fmtParseCell .spaceDash) = some parsed →
        parseTimestampColumn isoParse col = parsed) ∧
    ((∃ c ∈ col, isoParse c = none ∧ ∀ fmt, fmtParseCell fmt c = none) →
      parseTimestampColumn isoParse col = col) ∧
    (∀ t : Table, ∀ tsvals, (normalizeNames t).getCol "timestamp" = some tsvals →
      (transform_to_canonical_format isoParse t).getCol "timestamp"
        = some (parseTimestampColumn isoParse tsvals)) ∧
    (∀ df : Table, df.names.contains "timestamp" → 0 < df.nrows →
      ∀ c ∈ (df.getCol "timestamp").getD [], c ≠ Cell.null → dtTuple c = none →
      (computeMetrics df).isOk = false) ∧
    (∀ c ∈ col, isoParse c = none →
      pd_to_datetime_strict isoParse col
        = .error "ValueError: unable to parse timestamps") := by
  refine ⟨?_, ?_, ?_, ?_, ?_, ?_, ?_⟩
  · intro parsed h
    rw [parseTimestampColumn, h]
  · intro hiso parsed h
    rw [parseTimestampColumn, hiso, FALLBACK_FORMATS, tryFallbackFormats, h]
  · intro hiso h1 parsed h2
    rw [parseTimestampColumn, hiso, FALLBACK_FORMATS, tryFallbackFormats, h1,
      tryFallbackFormats, h2]
  · rintro ⟨c, hc, hiso, hfmt⟩
    rw [parseTimestampColumn, mapM_none_of_mem isoParse col c hc hiso,
      FALLBACK_FORMATS]
    rw [tryFallbackFormats, mapM_none_of_mem _ col c hc (hfmt .isoT)]
    rw [tryFallbackFormats, mapM_none_of_mem _ col c hc (hfmt .spaceDash)]
    rw [tryFallbackFormats, mapM_none_of_mem _ col c hc (hfmt .spaceSlash)]
    rfl
  · intro t tsvals hts
    have hunfold : transform_to_canonical_format isoParse t
        = ((OPTIONAL_COLUMNS.foldl (fun (acc : Table) pd =>
            if acc.names.contains pd.1 then acc else acc.addConstCol pd.1 pd.2)
            (applyTimestampParse isoParse (normalizeNames t))).updateCol
            "cost" toNumericFill) := rfl
    have h2 := getCol_applyTimestampParse_self isoParse (normalizeNames t) tsvals hts
    have hfold := fold_preserves_getCol OPTIONAL_COLUMNS
      (applyTimestampParse isoParse (normalizeNames t)) "timestamp"
      (by rw [h2]; rfl)
    rw [hunfold, getCol_updateCol_ne _ _ _ _ (by decide), hfold, h2]
  · intro df hts hn c hc hnn hdt
    rw [computeMetrics_error_of_raw df hts hn c hc hnn hdt]
    rfl
  · intro c hc hiso
    rw [pd_to_datetime_strict, mapM_none_of_mem isoParse col c hc hiso]

/-- Witness for C7 amended: on the column ["garbage"] every attempt fails and
the column is returned unchanged (also through the full transformation); when
the ISO attempt fails, the %Y-%m-%dT%H:%M:%S fallback is the next one tried;
the metrics step rejects the raw one-cell column; and the strict
pd.to_datetime path raises on it. -/
theorem timestamp_parse_order_and_fallthrough_witness :
    parseTimestampColumn isoParseCellImpl [Cell.str "garbage"]
      = [Cell.str "garbage"] ∧
    parseTimestampColumn (fun _ => none) [Cell.str "2024-01-02T10:30:00"]
      = [Cell.time 2024 1 2 10 30 0] ∧
    (transform_to_canonical_format isoParseCellImpl
      ⟨[("timestamp", [Cell.str "garbage"])]⟩).getCol "timestamp"
      = some [Cell.str "garbage"] ∧
    (computeMetrics ⟨[("timestamp", [Cell.str "garbage"])]⟩).isOk = false ∧
    pd_to_datetime_strict isoParseCellImpl [Cell.str "garbage"]
      = .error "ValueError: unable to parse timestamps" := by
  refine ⟨?_, ?_, ?_, ?_, ?_⟩
  · exact (timestamp_parse_order_and_fallthrough isoParseCellImpl
      [Cell.str "garbage"]).2.2.2.1
      ⟨Cell.str "garbage", by decide, by decide, fun fmt => by cases fmt <;> rfl⟩
  · exact (timestamp_parse_order_and_fallthrough (fun _ => none)
      [Cell.str "2024-01-02T10:30:00"]).2.1 (by decide)
      [Cell.time 2024 1 2 10 30 0] (by decide)
  · rw [(timestamp_parse_order_and_fallthrough isoParseCellImpl
      [Cell.str "garbage"]).2.2.2.2.1 ⟨[("timestamp", [Cell.str "garbage"])]⟩
      [Cell.str "garbage"] (by decide)]
    rfl
  · exact (timestamp_parse_order_and_fallthrough isoParseCellImpl
      [Cell.str "garbage"]).2.2.2.2.2.1 ⟨[("timestamp", [Cell.str "garbage"])]⟩
      (by decide) (by decide) (Cell.str "garbage") (by decide) (by decide)
      (by decide)
  · exact (timestamp_parse_order_and_fallthrough isoParseCellImpl
      [Cell.str "garbage"]).2.2.2.2.2.2 (Cell.str "garbage") (by decide)
      (by decide)

/-- dropWhile never lengthens a list. -/
theorem length_dropWhile_le {α : Type} (p : α → Bool) (l : List α) :
    (l.dropWhile p).length ≤ l.length := by
  induction l with
  | nil => simp
  | cons x xs ih =>
    rw [List.dropWhile_cons]
    split
    · exact le_trans ih (by simp)
    · simp

/-- Stripping never lengthens a string. -/
theorem length_pyStrip_le (l : List Char) : (pyStrip l).length ≤ l.length := by
  rw [pyStrip, List.length_reverse]
  refine le_trans (length_dropWhile_le _ _) ?_
  rw [List.length_reverse]
  exact length_dropWhile_le _ _

/-- Length of a Python slice. -/
theorem pySlice_length (l : List Char) (a b : Nat) :
    (pySlice l a b).length = min b l.length - a := by
  simp [pySlice]

/-- Adjacent slices concatenate to the enclosing slice. -/
theorem pySlice_glue (l : List Char) (a b d : Nat) (h1 : a ≤ b) (h2 : b ≤ d) :
    pySlice l a b ++ pySlice l b d = pySlice l a d := by
  rw [pySlice, pySlice, pySlice, List.drop_take, List.drop_take, List.drop_take]
  have hd : l.drop b = (l.drop a).drop (b - a) := by
    rw [List.drop_drop]
    congr 1
    omega
  rw [hd]
  have : d - a = (b - a) + (d - b) := by omega
  rw [this, List.take_add]

/-- Dropping from a slice advances its start. -/
theorem pySlice_drop (l : List Char) (a b k : Nat) :
    (pySlice l a b).drop k = pySlice l (a + k) b := by
  simp [pySlice, List.drop_drop]

/-- A slice starting past the end is empty. -/
theorem pySlice_of_ge (l : List Char) (a b : Nat) (h : l.length ≤ a) :
    pySlice l a b = [] := by
  apply List.drop_eq_nil_of_le
  simp
  omega

/-- A slice bound past the end clamps to the end. -/
theorem pySlice_truncate (l : List Char) (a b : Nat) (h : l.length ≤ b) :
    pySlice l a b = pySlice l a l.length := by
  rw [pySlice, pySlice, List.take_of_length_le h, List.take_length]

/-- The full slice is the list itself. -/
theorem pySlice_full (l : List Char) : pySlice l 0 l.length = l := by
  simp [pySlice]

/-- An occurrence of the pattern fits inside the window. -/
theorem occursAt_bound (w pat : List Char) (i : Nat) (h : occursAt w pat i = true)
    (hi : i ≤ w.length) : i + pat.length ≤ w.length := by
  rw [occursAt, beq_iff_eq] at h
  have hlen := congrArg List.length h
  simp [List.length_take, List.length_drop] at hlen
  omega

/-- A found occurrence index leaves room for the pattern. -/
theorem rfindSub_bound (w pat : List Char) (i : Nat) (h : rfindSub w pat = some i) :
    i + pat.length ≤ w.length := by
  rw [rfindSub] at h
  have hmem : i ∈ (List.range (w.length + 1)).filter (occursAt w pat) :=
    List.mem_of_mem_getLast? (Option.mem_def.mpr h)
  have := List.mem_filter.mp hmem
  exact occursAt_bound w pat i this.2 (by have := List.mem_range.mp this.1; omega)

/-- A sentence-boundary offset exceeds the overlap (under the 70% threshold
side condition) and stays inside the window. -/
theorem boundaryOffset_bounds (window : List Char) (cs ov : Nat)
    (h7 : ov * 10 ≤ cs * 7) :
    ∀ seps off, boundaryOffset window cs seps = some off →
      ov < off ∧ off ≤ window.length := by
  intro seps
  induction seps with
  | nil => intro off h; cases h
  | cons sep rest ih =>
    intro off h
    rw [boundaryOffset] at h
    cases hf : rfindSub window sep with
    | none => rw [hf] at h; exact ih off h
    | some i =>
      rw [hf] at h
      dsimp only at h
      by_cases hth : i * 10 > cs * 7
      · rw [if_pos hth] at h
        injection h with h
        subst h
        have := rfindSub_bound window sep i hf
        omega
      · rw [if_neg hth] at h
        exact ih off h

/-- Every loop window ends strictly more than `overlap` past its start and at
most `chunk_size` past it. -/
theorem windowEnd_bounds (content : List Char) (cs ov start : Nat)
    (hov : ov < cs) (h7 : ov * 10 ≤ cs * 7) (_hstart : start < content.length) :
    start + ov < windowEnd content cs start ∧
      windowEnd content cs start ≤ start + cs := by
  rw [windowEnd]
  by_cases hin : start + cs < content.length
  · rw [if_pos hin]
    cases hb : boundaryOffset (pySlice content start (start + cs)) cs SENTENCE_SEPS with
    | none => simp only [Option.getD_none]; omega
    | some off =>
      simp only [Option.getD_some]
      have hb2 := boundaryOffset_bounds _ cs ov h7 SENTENCE_SEPS off hb
      have hlen : (pySlice content start (start + cs)).length = cs := by
        rw [pySlice_length]
        omega
      rw [hlen] at hb2
      omega
  · rw [if_neg hin]
    omega

/-- Unfolding the overlap-removal concatenation over a first window. -/
theorem spanTailConcat_cons (content : List Char) (ov : Nat) (p : Nat × Nat)
    (rest : List (Nat × Nat)) :
    spanTailConcat content ov (p :: rest)
      = (pySlice content p.1 p.2).drop ov ++ spanTailConcat content ov rest := by
  simp [spanTailConcat]

/-- The overlap-removal concatenation of no windows is empty. -/
theorem spanTailConcat_nil (content : List Char) (ov : Nat) :
    spanTailConcat content ov [] = [] := rfl

/-- Invariant of the chunking loop: the windows recorded from position `start`
onward, each with its leading `overlap` characters removed, concatenate to the
rest of the text; a run from inside the text opens with a window at `start`;
and every window spans more than `overlap` and at most `chunk_size`
characters. -/
theorem chunkSpans_invariant (content : List Char) (cs ov : Nat) (hov : ov < cs)
    (h7 : ov * 10 ≤ cs * 7) :
    ∀ fuel start spans, chunkSpans content cs ov fuel start = some spans →
      (spanTailConcat content ov spans
        = pySlice content (start + ov) content.length) ∧
      (content.length ≤ start → spans = []) ∧
      (start < content.length →
        spanConcat content ov spans = pySlice content start content.length ∧
        ∃ e rest, spans = (start, e) :: rest) ∧
      (∀ p ∈ spans, p.1 + ov < p.2 ∧ p.2 ≤ p.1 + cs) := by
  intro fuel
  induction fuel with
  | zero => intro start spans h; cases h
  | succ n ih =>
    intro start spans h
    simp only [chunkSpans] at h
    by_cases hs : start < content.length
    · rw [if_pos hs] at h
      cases hrec : chunkSpans content cs ov n
          (if windowEnd content cs start < content.length
            then windowEnd content cs start - ov else windowEnd content cs start) with
      | none => rw [hrec] at h; cases h
      | some rest =>
        rw [hrec] at h
        injection h with h
        subst h
        obtain ⟨hb1, hb2⟩ := windowEnd_bounds content cs ov start hov h7 hs
        by_cases hel : windowEnd content cs start < content.length
        · rw [if_pos hel] at hrec
          have IH := ih (windowEnd content cs start - ov) rest hrec
          have htail : spanTailConcat content ov rest
              = pySlice content (windowEnd content cs start) content.length := by
            have h1 := IH.1
            have : windowEnd content cs start - ov + ov = windowEnd content cs start := by
              omega
            rw [this] at h1
            exact h1
          refine ⟨?_, ?_, ?_, ?_⟩
          · rw [spanTailConcat_cons, pySlice_drop, htail]
            exact pySlice_glue content (start + ov) (windowEnd content cs start)
              content.length (by omega) (by omega)
          · intro hcon; omega
          · intro _
            refine ⟨?_, windowEnd content cs start, rest, rfl⟩
            rw [spanConcat, htail]
            exact pySlice_glue content start (windowEnd content cs start)
              content.length (by omega) (by omega)
          · intro p hp
            rcases List.mem_cons.mp hp with hh | hh
            · subst hh; exact ⟨hb1, hb2⟩
            · exact IH.2.2.2 p hh
        · rw [if_neg hel] at hrec
          have IH := ih (windowEnd content cs start) rest hrec
          have hrest : rest = [] := IH.2.1 (by omega)
          subst hrest
          refine ⟨?_, ?_, ?_, ?_⟩
          · rw [spanTailConcat_cons, spanTailConcat_nil, List.append_nil, pySlice_drop]
            exact pySlice_truncate content (start + ov) (windowEnd content cs start)
              (by omega)
          · intro hcon; omega
          · intro _
            refine ⟨?_, windowEnd content cs start, [], rfl⟩
            rw [spanConcat, spanTailConcat_nil, List.append_nil]
            exact pySlice_truncate content start (windowEnd content cs start) (by omega)
          · intro p hp
            rcases List.mem_cons.mp hp with hh | hh
            · subst hh; exact ⟨hb1, hb2⟩
            · cases hh
    · rw [if_neg hs] at h
      injection h with h
      subst h
      refine ⟨?_, fun _ => rfl, fun hcon => absurd hcon hs, by simp⟩
      rw [spanTailConcat_nil]
      exact (pySlice_of_ge content (start + ov) content.length (by omega)).symm


/-- C3 amended: whenever the chunking loop terminates it emits at least one
chunk, no chunk exceeds chunk_size (the sentence-boundary adjustment only ever
shortens a window), and concatenating the raw chunk windows with the
overlapping regions removed reconstructs the original text exactly; the
emitted chunks are those windows trimmed of surrounding whitespace, so
reconstruction from the emitted chunks holds only up to that boundary
trimming. Side conditions overlap < chunk_size and
overlap <= 0.7 * chunk_size (satisfied by the fixed 500/100 configuration)
keep the loop progressing. -/
theorem chunk_coverage_amended (content : List Char) (cs ov : Nat)
    (hov : ov < cs) (h7 : ov * 10 ≤ cs * 7) :
    (∀ chunks, chunk_document content cs ov = some chunks →
      chunks ≠ [] ∧ ∀ ch ∈ chunks, ch.length ≤ cs) ∧
    (∀ spans, cs < content.length →
      chunkSpans content cs ov (content.length + 1) 0 = some spans →
      spanConcat content ov spans = content ∧
      chunk_document content cs ov
        = some (spans.map (fun p => pyStrip (pySlice content p.1 p.2)))) := by
  constructor
  · intro chunks h
    rw [chunk_document] at h
    by_cases hlen : content.length ≤ cs
    · rw [if_pos hlen] at h
      injection h with h
      subst h
      refine ⟨by simp, ?_⟩
      intro ch hch
      simp at hch
      subst hch
      exact hlen
    · rw [if_neg hlen] at h
      cases hsp : chunkSpans content cs ov (content.length + 1) 0 with
      | none => rw [hsp] at h; cases h
      | some spans =>
        rw [hsp, Option.map_some'] at h
        injection h with h
        subst h
        have inv := chunkSpans_invariant content cs ov hov h7 (content.length + 1)
          0 spans hsp
        have h0 : 0 < content.length := by omega
        obtain ⟨e, rest, hspans⟩ := (inv.2.2.1 h0).2
        constructor
        · rw [hspans]; simp
        · intro ch hch
          obtain ⟨p, hp, hpe⟩ := List.mem_map.mp hch
          have hb := inv.2.2.2 p hp
          have hl1 : (pyStrip (pySlice content p.1 p.2)).length
              ≤ (pySlice content p.1 p.2).length := length_pyStrip_le _
          have hl2 : (pySlice content p.1 p.2).length = min p.2 content.length - p.1 :=
            pySlice_length content p.1 p.2
          rw [← hpe]
          omega
  · intro spans hcs hsp
    have inv := chunkSpans_invariant content cs ov hov h7 (content.length + 1)
      0 spans hsp
    have h0 : 0 < content.length := by omega
    constructor
    · exact ((inv.2.2.1 h0).1).trans (pySlice_full content)
    · rw [chunk_document, if_neg (by omega), hsp]
      rfl

/-- C3 counterexample: on the 9-character text "abcd efgh" with chunk_size 5
and overlap 2 the chunker emits ["abcd", "d efg", "fgh"] — the first chunk is
trimmed ("abcd" instead of "abcd ") — and concatenating the chunks with the
overlapping regions removed yields "abcdefgh", which is NOT the original text:
the space lost to trimming is missing. -/
theorem chunk_concat_not_exact :
    chunk_document ("abcd efgh".toList) 5 2
      = some ["abcd".toList, "d efg".toList, "fgh".toList] ∧
    chunkConcat 2 ["abcd".toList, "d efg".toList, "fgh".toList]
      = "abcdefgh".toList ∧
    "abcdefgh".toList ≠ "abcd efgh".toList := by
  refine ⟨by decide, by decide, by decide⟩

/-- Witness for C3 amended at the concrete input "abcd efgh": the loop
terminates with three chunks, the window reconstruction gives back the text,
and every chunk is within the size budget. -/
theorem chunk_coverage_amended_witness :
    chunk_document ("abcd efgh".toList) 5 2
      = some ["abcd".toList, "d efg".toList, "fgh".toList] ∧
    spanConcat ("abcd efgh".toList) 2 [(0, 5), (3, 8), (6, 11)]
      = "abcd efgh".toList ∧
    ["abcd".toList, "d efg".toList, "fgh".toList] ≠ ([] : List (List Char)) ∧
    ∀ ch ∈ ["abcd".toList, "d efg".toList, "fgh".toList], ch.length ≤ 5 := by
  have h := chunk_coverage_amended ("abcd efgh".toList) 5 2 (by omega) (by omega)
  have h2 := h.2 [(0, 5), (3, 8), (6, 11)] (by decide) (by decide)
  have h1 := h.1 ["abcd".toList, "d efg".toList, "fgh".toList] (by decide)
  exact ⟨by decide, h2.1, h1.1, h1.2⟩

/-- C10: an upload larger than 50 MB (50 * 1024 * 1024 bytes) is rejected by
the combined ingestion endpoint with a 413 payload-too-large error before the
file is read, before extension dispatch and before any processing: the handler
performs no action at all. -/
theorem oversized_upload_rejected_first (size : Nat) (f : List Char)
    (h : 50 * 1024 * 1024 < size) :
    upload_file_for_processing size f = ([], .httpError 413) := by
  simp only [upload_file_for_processing]
  rw [if_pos h]

/-- Witness for C10: one byte over the cap is rejected with 413 and no
actions. -/
theorem oversized_upload_rejected_first_witness :
    upload_file_for_processing (50 * 1024 * 1024 + 1) ("a.csv".toList)
      = ([], .httpError 413) :=
  oversized_upload_rejected_first (50 * 1024 * 1024 + 1) ("a.csv".toList)
    (by omega)

end ProcMine
